import Mathlib

/-!
Verification development for the payment-gated content-agent service.

The definitions below are shallow embeddings of the Python source:
  * src/tools/serp_client.py   — retry wrapper and SERP result normalisation
  * src/tools/masumi_image_client.py — bounded image status polling
  * src/graph.py, src/state.py — the research → copy → image → hashtags graph
  * src/main.py                — job store, payment handler, status endpoint

External effects (HTTP calls, the LLM, the payment provider, sleeps) are
modelled as oracle functions supplied as parameters; sleeps are recorded as
integer second counts (the source only ever doubles an initial delay of 1.0,
so all float values are exact integers).
-/

namespace AiContentAgent

/-! ### Retry client — SerpClient._request_with_retry (serp_client.py lines 64-81) -/

/-- Error raised by the retry wrapper when all attempts fail: the wrapper
message together with the chained (from-clause) last underlying failure. -/
structure SerpFailure where
  message : String
  cause : Option String

/-- Trace of the inner retry loop: final result (error carries the last
underlying failure), the sequence of sleeps performed, and the number of
invocations of the wrapped operation. -/
structure LoopTrace (α : Type) where
  result : Except (Option String) α
  sleeps : List Nat
  calls : Nat

/-- Trace of a full retry-wrapped request. -/
structure RetryTrace (α : Type) where
  result : Except SerpFailure α
  sleeps : List Nat
  calls : Nat

/-- The for-loop of _request_with_retry: fuel counts remaining attempts,
attempt is the 1-based attempt number, delay the current backoff in seconds.
On each failure the source sleeps the current delay (also after the final
attempt) and doubles it. -/
def retryLoop (op : Nat → Except String α) (fuel attempt delay : Nat)
    (lastErr : Option String) (sleeps : List Nat) (calls : Nat) : LoopTrace α :=
  match fuel with
  | 0 => ⟨Except.error lastErr, sleeps.reverse, calls⟩
  | f + 1 =>
    match op attempt with
    | Except.ok v => ⟨Except.ok v, sleeps.reverse, calls + 1⟩
    | Except.error e =>
        retryLoop op f (attempt + 1) (delay * 2) (some e) (delay :: sleeps) (calls + 1)

/-- SerpClient._request_with_retry with the given retries budget: runs the
loop from attempt 1 with delay 1 second and, on exhaustion, wraps the last
failure in a SerpApiError-like value. -/
def requestWithRetry (retries : Nat) (op : Nat → Except String α) : RetryTrace α :=
  match retryLoop op retries 1 1 none [] 0 with
  | ⟨Except.ok v, sleeps, calls⟩ => ⟨Except.ok v, sleeps, calls⟩
  | ⟨Except.error lastErr, sleeps, calls⟩ =>
      ⟨Except.error ⟨"SerpAPI request failed after " ++ toString retries ++ " attempts", lastErr⟩,
       sleeps, calls⟩

/-- Concrete operation that fails on the first two attempts and succeeds on
the third, used as a witness input. -/
def opFailTwice : Nat → Except String Nat :=
  fun n => if n = 1 then Except.error "f1" else if n = 2 then Except.error "f2" else Except.ok 7

/-- Concrete operation that fails on every attempt, used as a witness input. -/
def opAlwaysFail : Nat → Except String Nat :=
  fun n => Except.error ("g" ++ toString n)

/-! ### Image status polling — wait_for_image_result (masumi_image_client.py lines 203-268) -/

/-- One response of the image agent /status endpoint: the HTTP status code
and the status field of the JSON payload (absent field modelled as none). -/
structure PollResponse where
  httpStatus : Nat
  status : Option String
deriving DecidableEq

/-- The typed MasumiImageClientError raised by the polling loop, tagged with
the reason: HTTP error response, terminal failed status, or poll-limit
exhaustion (carrying the last seen payload). -/
inductive ImageClientError
  | httpError (code : Nat)
  | jobFailed (resp : PollResponse)
  | pollLimitExhausted (last : Option PollResponse)
deriving DecidableEq

/-- The polling for-loop of wait_for_image_result: fuel counts remaining
polls, attempt is the 1-based attempt number, polls the number of status
queries performed so far, last the last successfully parsed payload. -/
def waitLoop (oracle : Nat → PollResponse) (fuel attempt polls : Nat)
    (last : Option PollResponse) : Except ImageClientError PollResponse × Nat :=
  match fuel with
  | 0 => (Except.error (ImageClientError.pollLimitExhausted last), polls)
  | f + 1 =>
    if 400 ≤ (oracle attempt).httpStatus then
      (Except.error (ImageClientError.httpError (oracle attempt).httpStatus), polls + 1)
    else if (oracle attempt).status = some "completed" then
      (Except.ok (oracle attempt), polls + 1)
    else if (oracle attempt).status = some "failed" then
      (Except.error (ImageClientError.jobFailed (oracle attempt)), polls + 1)
    else
      waitLoop oracle f (attempt + 1) (polls + 1) (some (oracle attempt))

/-- wait_for_image_result with max_polls attempts: returns the terminal
outcome together with the number of status queries performed. -/
def waitForImageResult (oracle : Nat → PollResponse) (maxPolls : Nat) :
    Except ImageClientError PollResponse × Nat :=
  waitLoop oracle maxPolls 1 0 none

/-- A poll response is non-terminal when the HTTP call succeeded and the
payload status is neither completed nor failed. -/
def NonTerminal (r : PollResponse) : Prop :=
  r.httpStatus < 400 ∧ r.status ≠ some "completed" ∧ r.status ≠ some "failed"

instance (r : PollResponse) : Decidable (NonTerminal r) := by
  unfold NonTerminal; infer_instance

/-- Concrete poll oracle: pending twice, then completed; used as a witness. -/
def pollOracleW : Nat → PollResponse :=
  fun n => if n ≤ 2 then ⟨200, some "pending"⟩ else ⟨200, some "completed"⟩

/-! ### SERP result normalisation — SerpClient._normalize_results (serp_client.py lines 92-128) -/

/-- One raw item of the SerpAPI payload; every field the source reads, each
optional as in a JSON object. -/
structure SerpItem where
  title : Option String
  question : Option String
  link : Option String
  source : Option String
  snippet : Option String
  answer : Option String
  description : Option String
deriving DecidableEq

/-- The three result lists read from the SerpAPI payload. -/
structure SerpPayload where
  organicResults : List SerpItem
  newsResults : List SerpItem
  relatedQuestions : List SerpItem
deriving DecidableEq

/-- One normalised snippet: exactly the four keys built by _push. -/
structure NormalizedSnippet where
  title : Option String
  link : Option String
  snippet : Option String
  source : Option String
deriving DecidableEq

/-- Python truthiness of a string-or-None value: None and the empty string
are falsy. -/
def pyTruthy : Option String → Bool
  | none => false
  | some s => s ≠ ""

/-- Python `a or b` on string-or-None values. -/
def pyOr (a b : Option String) : Option String :=
  if pyTruthy a then a else b

/-- Python `a or dflt` where dflt is a string literal. -/
def pyOrStr (a : Option String) (dflt : String) : String :=
  if pyTruthy a then a.getD dflt else dflt

/-- The snippet built by _push from one payload item and a source label. -/
def mkSnippet (item : SerpItem) (src : String) : NormalizedSnippet :=
  { title := some (pyOrStr (pyOr item.title item.question) "Untitled")
    link := pyOr item.link item.source
    snippet := some (pyOrStr (pyOr item.snippet (pyOr item.answer item.description)) "")
    source := some src }

/-- The placeholder snippet appended when no results were found. -/
def placeholderSnippet (query : String) : NormalizedSnippet :=
  { title := some ("No public snippets for " ++ query)
    link := some ""
    snippet := some "SerpAPI returned no organic results."
    source := some "serpapi" }

/-- The combined list built by _normalize_results before the placeholder
fallback: up to num_results organic and news entries plus up to two related
questions, in push order. -/
def combinedResults (numResults : Nat) (payload : SerpPayload) : List NormalizedSnippet :=
  (payload.organicResults.take numResults).map (fun e => mkSnippet e (pyOrStr e.source "organic"))
  ++ (payload.newsResults.take numResults).map (fun e => mkSnippet e (pyOrStr e.source "news"))
  ++ (payload.relatedQuestions.take 2).map (fun e => mkSnippet e "related_question")

/-- SerpClient._normalize_results: pushes up to num_results organic and news
entries and up to two related questions, falls back to a placeholder when
nothing was collected, and truncates to num_results. -/
def normalizeResults (numResults : Nat) (payload : SerpPayload) (query : String) :
    List NormalizedSnippet :=
  (if (combinedResults numResults payload).isEmpty then [placeholderSnippet query]
   else combinedResults numResults payload).take numResults

/-- Concrete payload with one organic result, used as a witness input. -/
def samplePayload : SerpPayload :=
  { organicResults := [⟨some "T", none, some "https://x", none, some "S", none, none⟩]
    newsResults := []
    relatedQuestions := [] }

/-- Concrete payload with no results at all, used as a witness input. -/
def emptyPayload : SerpPayload :=
  { organicResults := [], newsResults := [], relatedQuestions := [] }

/-! ### Content graph — ContentGraph (graph.py) over State (state.py) -/

/-- Output of the research agent's summarize call. -/
structure ResearchOut where
  insights : List String
  summary : String
deriving DecidableEq

/-- CopywritingOutput of state.py; image_prompt may be absent. -/
structure Post where
  postBody : String
  headline : String
  rationale : String
  callToAction : Option String
  imagePrompt : Option String
deriving DecidableEq

/-- HashtagOutput of state.py. -/
structure HashtagPackage where
  hashtags : List String
  explainer : String
deriving DecidableEq

/-- Result of generate_image_with_masumi as consumed by the graph node. -/
structure ImageResult where
  jobId : Option String
  ipfsHash : Option String
  imageIpfsUrl : Option String
deriving DecidableEq

/-- The metadata side-channel dict: exactly the keys the graph nodes write. -/
structure Metadata where
  serpSnippetCount : Option Nat
  researchSummary : Option String
  image : Option ImageResult
  imageError : Option String
deriving DecidableEq

/-- The State TypedDict threaded through the graph, plus the image output
keys the image node writes. -/
structure PState where
  topic : String
  tone : String
  platform : String
  keywords : List String
  link : Option String
  contextSnippets : List NormalizedSnippet
  insights : List String
  researchSummary : String
  post : Option Post
  hashtagPackage : Option HashtagPackage
  imageIpfsHash : Option String
  imageIpfsUrl : Option String
  imageError : Option String
  imageJob : Option ImageResult
  metadata : Metadata
  errors : List String
deriving DecidableEq

/-- Outcomes of the external collaborators used by the five graph nodes; an
error value models the corresponding call raising. -/
structure GraphEnv where
  fetchSnippets : Except String (List NormalizedSnippet)
  research : Except String ResearchOut
  copy : Except String Post
  image : Except String ImageResult
  hashtags : Except String HashtagPackage

/-- Node fetch_snippets: stores the snippets and records their count in
metadata; a SerpClient exception propagates (fatal). -/
def fetchSnippetsNode (env : GraphEnv) (s : PState) : Except String PState :=
  match env.fetchSnippets with
  | Except.error e => Except.error e
  | Except.ok snips =>
      Except.ok { s with contextSnippets := snips,
                         metadata := { s.metadata with serpSnippetCount := some snips.length } }

/-- Node synthesize_research: stores insights and summary (fatal on error). -/
def synthesizeResearchNode (env : GraphEnv) (s : PState) : Except String PState :=
  match env.research with
  | Except.error e => Except.error e
  | Except.ok r =>
      Except.ok { s with insights := r.insights, researchSummary := r.summary,
                         metadata := { s.metadata with researchSummary := some r.summary } }

/-- Node generate_copy: stores the post (fatal on error). -/
def generateCopyNode (env : GraphEnv) (s : PState) : Except String PState :=
  match env.copy with
  | Except.error e => Except.error e
  | Except.ok p => Except.ok { s with post := some p }

/-- Node generate_image: skipped when the copywriter produced no truthy
image_prompt; on success stores the image fields; every exception is caught
and recorded only under metadata.image_error and the image_error key —
the node never fails the graph and never touches the errors list. -/
def generateImageNode (env : GraphEnv) (s : PState) : Except String PState :=
  match s.post with
  | none => Except.ok s
  | some p =>
    match p.imagePrompt with
    | none => Except.ok s
    | some ip =>
      if ip = "" then Except.ok s
      else
        match env.image with
        | Except.ok r =>
            Except.ok { s with metadata := { s.metadata with image := some r },
                               imageIpfsHash := r.ipfsHash,
                               imageIpfsUrl := r.imageIpfsUrl,
                               imageJob := some r }
        | Except.error e =>
            Except.ok { s with metadata := { s.metadata with imageError := some e },
                               imageError := some e }

/-- Node generate_hashtags: stores the hashtag package (fatal on error). -/
def generateHashtagsNode (env : GraphEnv) (s : PState) : Except String PState :=
  match env.hashtags with
  | Except.error e => Except.error e
  | Except.ok pkg => Except.ok { s with hashtagPackage := some pkg }

/-- The compiled graph: the five nodes in the edge order of _build_graph. -/
def runContentGraph (env : GraphEnv) (s : PState) : Except String PState :=
  fetchSnippetsNode env s >>= synthesizeResearchNode env >>= generateCopyNode env
    >>= generateImageNode env >>= generateHashtagsNode env

/-- Fresh pipeline context created from a content request, all output fields
absent. -/
def initialPState (topic tone platform : String) (keywords : List String)
    (link : Option String) : PState :=
  { topic := topic, tone := tone, platform := platform, keywords := keywords, link := link
    contextSnippets := [], insights := [], researchSummary := ""
    post := none, hashtagPackage := none
    imageIpfsHash := none, imageIpfsUrl := none, imageError := none, imageJob := none
    metadata := ⟨none, none, none, none⟩, errors := [] }

/-- Concrete graph environment in which every stage succeeds except image
generation, which raises; used for the image-failure scenarios. -/
def graphEnvImageFail : GraphEnv :=
  { fetchSnippets := Except.ok [⟨some "T", some "L", some "S", some "test"⟩]
    research := Except.ok ⟨["Insight A"], "Summary"⟩
    copy := Except.ok ⟨"Body", "HL", "Because", none, some "an image prompt"⟩
    image := Except.error "boom"
    hashtags := Except.ok ⟨["AI"], "test"⟩ }

/-- Concrete initial context for the image-failure scenarios. -/
def pStateW : PState := initialPState "Graph test" "bold" "linkedin" ["test"] none

/-! ### Job store and lifecycle — main.py (jobs, payment_instances, start_job,
handle_payment_status, get_status) -/

/-- The status field of a job record. -/
inductive JStatus
  | awaitingPayment
  | running
  | completed
  | failed
deriving DecidableEq

/-- Position of a status along the forward lifecycle order. -/
def statusRank : JStatus → Nat
  | JStatus.awaitingPayment => 0
  | JStatus.running => 1
  | JStatus.completed => 2
  | JStatus.failed => 2

/-- A keywords value: the caller supplies a comma string, the handler may
replace it by a list. -/
inductive KwVal
  | str (s : String)
  | list (l : List String)
deriving DecidableEq

/-- The caller-supplied input_data fields of a content job. -/
structure InputData where
  topic : String
  tone : String
  platform : String
  keywords : KwVal
  link : Option String
deriving DecidableEq

/-- Character class stripped by Python str.strip (ASCII whitespace). -/
def isPySpace (c : Char) : Bool :=
  (c == ' ') || (c == '\t') || (c == '\n') || (c == '\r')

/-- Python str.strip. -/
def pyStrip (s : String) : String :=
  String.mk (((s.toList.dropWhile isPySpace).reverse.dropWhile isPySpace).reverse)

/-- Helper of pySplitComma accumulating the current piece in reverse. -/
def splitCommaAux : List Char → List Char → List (List Char)
  | [], acc => [acc.reverse]
  | c :: rest, acc =>
      if c = ',' then acc.reverse :: splitCommaAux rest []
      else splitCommaAux rest (c :: acc)

/-- Python str.split on a comma separator. -/
def pySplitComma (s : String) : List String :=
  (splitCommaAux s.toList []).map String.mk

/-- The keywords normalisation of handle_payment_status (main.py lines
290-291): a string value is split on commas and stripped, any other value is
left untouched. -/
def processKeywords : KwVal → KwVal
  | KwVal.str s => KwVal.list ((pySplitComma s).map pyStrip)
  | v => v

/-- The in-place input_data update performed by handle_payment_status. -/
def processInput (input : InputData) : InputData :=
  { input with keywords := processKeywords input.keywords }

/-- One record of the in-memory jobs dict; α is the type of pipeline
results (result.json_dict is kept opaque). -/
structure JobRecord (α : Type) where
  status : JStatus
  paymentStatus : Option String
  blockchainIdentifier : String
  inputData : InputData
  result : Option α
  identifierFromPurchaser : String
  errorMsg : Option String
deriving DecidableEq

/-- Lookup in an association list keyed by job id. -/
def lookupAssoc {β : Type} : List (String × β) → String → Option β
  | [], _ => none
  | (k, v) :: rest, j => if k = j then some v else lookupAssoc rest j

/-- Update (or insert at the end) in an association list keyed by job id. -/
def updateAssoc {β : Type} : List (String × β) → String → β → List (String × β)
  | [], j, r => [(j, r)]
  | (k, v) :: rest, j, r =>
      if k = j then (j, r) :: rest else (k, v) :: updateAssoc rest j r

/-- The module-level mutable state of main.py: the jobs dict and the
payment_instances dict (membership is what matters: a registered instance is
a running Payment Monitor, removal always follows stop_status_monitoring). -/
structure Store (α : Type) where
  jobs : List (String × JobRecord α)
  paymentInstances : List String
deriving DecidableEq

/-- Lookup of a job record. -/
def lookupJob {α : Type} (st : Store α) (j : String) : Option (JobRecord α) :=
  lookupAssoc st.jobs j

/-- The store with no jobs and no monitors. -/
def emptyStore (α : Type) : Store α := ⟨[], []⟩

/-- Deregistration of a job's payment instance. -/
def removeInstance {α : Type} (st : Store α) (j : String) : Store α :=
  { st with paymentInstances := st.paymentInstances.filter (fun x => decide (x ≠ j)) }

/-- Outcome of the live check_payment_status call inside get_status: a
payload (whose data.status field may be absent), a ValueError, or any other
exception. -/
inductive CheckOutcome
  | ok (s : Option String)
  | valueError (msg : String)
  | exn (msg : String)
deriving DecidableEq

/-- External collaborators of the lifecycle controller: the pipeline
(execute_agentic_task), the provider's complete_payment call, and the
provider's check_payment_status call (keyed by job id). -/
structure SysEnv (α : Type) where
  pipeline : InputData → Except String α
  completePayment : String → α → Except String Unit
  checkPayment : String → CheckOutcome

/-- Observable events of a run: a write to a job's status field, or an
invocation of execute_agentic_task for a job. -/
inductive Ev
  | write (j : String) (s : JStatus)
  | exec (j : String)
deriving DecidableEq

/-- start_job (main.py lines 231-247): stores the job awaiting payment with
pending payment status and registers the payment monitor. Job ids are fresh
uuids, so a colliding id is modelled as a no-op. -/
def startJob {α : Type} (st : Store α) (j : String) (input : InputData)
    (bid pid : String) : Store α × List Ev :=
  if (lookupJob st j).isSome then (st, [])
  else
    ({ jobs := updateAssoc st.jobs j
         ⟨JStatus.awaitingPayment, some "pending", bid, input, none, pid, none⟩,
       paymentInstances := j :: st.paymentInstances },
     [Ev.write j JStatus.awaitingPayment])

/-- handle_payment_status (main.py lines 280-323). The handler immediately
sets status running and normalises keywords in place, then executes the
pipeline; on success it calls complete_payment (a KeyError when the instance
was already deleted, or a provider failure, lands in the except branch),
then marks the job completed and stores the result; any exception marks the
job failed with the error stored. The monitor is stopped and deregistered on
every path that reaches it. Invoking it for an unknown job raises KeyError
before any mutation, modelled as a no-op on the store.

Below, a job record after the except branch of handle_payment_status: status
failed, keywords already normalised in place, error string stored. -/
def failedJob {α : Type} (job : JobRecord α) (e : String) : JobRecord α :=
  { job with status := JStatus.failed, inputData := processInput job.inputData,
             errorMsg := some e }

/-- A job record after the success path of handle_payment_status: status
completed, keywords normalised in place, payment completed, result stored. -/
def completedJob {α : Type} (job : JobRecord α) (res : α) : JobRecord α :=
  { job with status := JStatus.completed, inputData := processInput job.inputData,
             paymentStatus := some "completed", result := some res }

def handlePayment {α : Type} (env : SysEnv α) (st : Store α) (j : String) :
    Store α × List Ev :=
  match lookupJob st j with
  | none => (st, [])
  | some job =>
    match env.pipeline (processInput job.inputData) with
    | Except.error e =>
        (removeInstance { st with jobs := updateAssoc st.jobs j (failedJob job e) } j,
         [Ev.write j JStatus.running, Ev.exec j, Ev.write j JStatus.failed])
    | Except.ok res =>
        if j ∈ st.paymentInstances then
          match env.completePayment job.blockchainIdentifier res with
          | Except.ok _ =>
              (removeInstance { st with jobs := updateAssoc st.jobs j (completedJob job res) } j,
               [Ev.write j JStatus.running, Ev.exec j, Ev.write j JStatus.completed])
          | Except.error e =>
              (removeInstance { st with jobs := updateAssoc st.jobs j (failedJob job e) } j,
               [Ev.write j JStatus.running, Ev.exec j, Ev.write j JStatus.failed])
        else
          ({ st with jobs := updateAssoc st.jobs j
                       (failedJob job "KeyError: payment instance missing") },
           [Ev.write j JStatus.running, Ev.exec j, Ev.write j JStatus.failed])

/-- The response body of the /status endpoint. -/
structure StatusResponse (α : Type) where
  jobId : String
  status : JStatus
  paymentStatus : Option String
  result : Option α
deriving DecidableEq

/-- get_status (main.py lines 328-360): 404 for an unknown job; when the
payment instance is still registered, one live provider check updates the
stored payment_status (a ValueError degrades it to unknown, any other
exception to error); the response always carries the stored lifecycle
status.

Below, the job record after the live payment-status check of get_status: when
the monitor is still registered the stored payment_status is refreshed (a
ValueError degrades it to unknown, any other exception to error), otherwise
the record is returned untouched. -/
def liveJob {α : Type} (env : SysEnv α) (st : Store α) (j : String) (job : JobRecord α) :
    JobRecord α :=
  if j ∈ st.paymentInstances then
    match env.checkPayment j with
    | CheckOutcome.ok s => { job with paymentStatus := s }
    | CheckOutcome.valueError _ => { job with paymentStatus := some "unknown" }
    | CheckOutcome.exn _ => { job with paymentStatus := some "error" }
  else job

def getStatus {α : Type} (env : SysEnv α) (st : Store α) (j : String) :
    Option (StatusResponse α) × Store α :=
  match lookupJob st j with
  | none => (none, st)
  | some job =>
    (some ⟨j, (liveJob env st j job).status, (liveJob env st j job).paymentStatus,
            (liveJob env st j job).result⟩,
     { st with jobs := updateAssoc st.jobs j (liveJob env st j job) })

/-- One inbound operation on the service. -/
inductive Op
  | start (j : String) (input : InputData) (bid pid : String)
  | handle (j : String)
  | query (j : String)

/-- One operation applied to the store, with its emitted events. -/
def stepOp {α : Type} (env : SysEnv α) (st : Store α) : Op → Store α × List Ev
  | Op.start j input bid pid => startJob st j input bid pid
  | Op.handle j => handlePayment env st j
  | Op.query j => ((getStatus env st j).2, [])

/-- A sequence of operations applied to the store, concatenating events. -/
def runOps {α : Type} (env : SysEnv α) (st : Store α) : List Op → Store α × List Ev
  | [] => (st, [])
  | op :: ops =>
      let p := stepOp env st op
      let q := runOps env p.1 ops
      (q.1, p.2 ++ q.2)

/-- The status values written for one job, in order. -/
def writesOf (evs : List Ev) (j : String) : List JStatus :=
  evs.filterMap (fun e =>
    match e with
    | Ev.write j2 s => if j2 = j then some s else none
    | Ev.exec _ => none)

/-- The number of pipeline executions performed for one job. -/
def execCount (evs : List Ev) (j : String) : Nat :=
  (evs.filter (fun e => decide (e = Ev.exec j))).length

/-- Whether a list of written statuses only ever moves forward. -/
def monotoneWritesB : List JStatus → Bool
  | [] => true
  | [_] => true
  | a :: b :: rest => decide (statusRank a ≤ statusRank b) && monotoneWritesB (b :: rest)

/-- The number of handle_payment_status invocations for one job in an
operation sequence. -/
def countHandle : List Op → String → Nat
  | [], _ => 0
  | Op.handle j2 :: ops, j => (if j2 = j then 1 else 0) + countHandle ops j
  | _ :: ops, j => countHandle ops j

/-- The job id an operation addresses. -/
def opKey : Op → String
  | Op.start j _ _ _ => j
  | Op.handle j => j
  | Op.query j => j

/-- Frame relation on input data: everything except a one-shot keywords
normalisation is unchanged. -/
def inputFrame (a b : InputData) : Prop :=
  b.topic = a.topic ∧ b.tone = a.tone ∧ b.platform = a.platform ∧ b.link = a.link ∧
    (b.keywords = a.keywords ∨ b.keywords = processKeywords a.keywords)

instance (a b : InputData) : Decidable (inputFrame a b) := by
  unfold inputFrame; infer_instance

/-- The Payment-Monitor/lifecycle property of spec section 3: an instance is
registered for a job exactly when that job exists and is awaiting payment.
It holds at operation boundaries of the atomic model, but the program
violates it between the running write at main.py line 286 and the monitor
deregistration at lines 313-314 / 322-323, a window that spans the awaits of
execute_agentic_task and complete_payment. -/
def storeInv {α : Type} (st : Store α) : Prop :=
  ∀ j, j ∈ st.paymentInstances ↔
    ∃ r, lookupJob st j = some r ∧ r.status = JStatus.awaitingPayment

/-- Concrete caller input with a comma-string keywords field. -/
def inputW : InputData :=
  { topic := "T", tone := "bold", platform := "linkedin"
    keywords := KwVal.str "Masumi Network, Cardano", link := none }

/-- Concrete environment in which the pipeline and complete_payment always
succeed. -/
def envOkW : SysEnv String :=
  { pipeline := fun _ => Except.ok "R"
    completePayment := fun _ _ => Except.ok ()
    checkPayment := fun _ => CheckOutcome.ok (some "pending") }

/-- Concrete environment in which the pipeline succeeds but complete_payment
raises. -/
def envPayFailW : SysEnv String :=
  { pipeline := fun _ => Except.ok "R"
    completePayment := fun _ _ => Except.error "provider down"
    checkPayment := fun _ => CheckOutcome.ok (some "pending") }

/-- The duplicate-confirmation scenario: one job is started and its payment
confirmation callback is delivered twice. -/
def opsDup : List Op := [Op.start "j" inputW "bid" "pid", Op.handle "j", Op.handle "j"]

/-- A job record freshly created for inputW, used as a concrete witness. -/
def recW : JobRecord String :=
  ⟨JStatus.awaitingPayment, some "pending", "bid", inputW, none, "pid", none⟩

/-- A one-job store in awaiting_payment state with its monitor registered,
used as a concrete witness store. -/
def storeW : Store String := ⟨[("j", recW)], ["j"]⟩

/-- The job record stored after one payment confirmation on storeW. -/
def recAfterHandleW : JobRecord String :=
  (lookupJob (runOps envOkW storeW [Op.handle "j"]).1 "j").getD recW

/-- Concrete environment whose live payment check raises ValueError. -/
def envValueErrW : SysEnv String :=
  { pipeline := fun _ => Except.ok "R"
    completePayment := fun _ _ => Except.ok ()
    checkPayment := fun _ => CheckOutcome.valueError "bad payload" }

/-- Concrete environment whose live payment check raises a non-ValueError
exception. -/
def envExnW : SysEnv String :=
  { pipeline := fun _ => Except.ok "R"
    completePayment := fun _ _ => Except.ok ()
    checkPayment := fun _ => CheckOutcome.exn "connection reset" }

/-- The errors list of a successful graph run. -/
def graphErrorsOf (env : GraphEnv) (s : PState) : Option (List String) :=
  match runContentGraph env s with
  | Except.ok f => some f.errors
  | Except.error _ => none

/-- The metadata image_error entry of a successful graph run. -/
def graphMetaImageErrorOf (env : GraphEnv) (s : PState) : Option (Option String) :=
  match runContentGraph env s with
  | Except.ok f => some f.metadata.imageError
  | Except.error _ => none

/-- A job record over pipeline-state results, used as a concrete witness. -/
def recPW : JobRecord PState :=
  ⟨JStatus.awaitingPayment, some "pending", "bid", inputW, none, "pid", none⟩

/-- A one-job store over pipeline-state results, used as a concrete witness. -/
def storePW : Store PState := ⟨[("j", recPW)], ["j"]⟩

/-- A job record after the synchronous prefix of handle_payment_status
(main.py lines 286-291): status set to running and keywords normalised in
place, nothing else touched yet. -/
def runningJob {α : Type} (job : JobRecord α) : JobRecord α :=
  { job with status := JStatus.running, inputData := processInput job.inputData }

/-- The store while handle_payment_status is suspended at its first await
(the await of execute_agentic_task, main.py line 296): lines 286-291 have
run, but stop_status_monitoring has not been called and the payment instance
is still registered — that happens only at lines 313-314 / 322-323. The
second component is the status write performed so far. -/
def handlerEntry {α : Type} (st : Store α) (j : String) : Store α × List Ev :=
  match lookupJob st j with
  | none => (st, [])
  | some job =>
      ({ st with jobs := updateAssoc st.jobs j (runningJob job) },
       [Ev.write j JStatus.running])

/-- The stored record written by the except branch when the handler resumes
from the mid-await store: the keywords are already normalised there, so only
status and error change. -/
def resumeFailedJob {α : Type} (job : JobRecord α) (e : String) : JobRecord α :=
  { job with status := JStatus.failed, errorMsg := some e }

/-- The stored record written by the success path when the handler resumes
from the mid-await store. -/
def resumeCompletedJob {α : Type} (job : JobRecord α) (res : α) : JobRecord α :=
  { job with status := JStatus.completed, paymentStatus := some "completed",
             result := some res }

/-- The remainder of handle_payment_status from the first await on (main.py
lines 296-323), acting on the mid-await store: execute the pipeline on the
already-normalised input, then complete_payment (KeyError when the instance
is gone), then the terminal status write and the monitor deregistration. -/
def handlerResume {α : Type} (env : SysEnv α) (st : Store α) (j : String) :
    Store α × List Ev :=
  match lookupJob st j with
  | none => (st, [])
  | some job =>
    match env.pipeline job.inputData with
    | Except.error e =>
        (removeInstance { st with jobs := updateAssoc st.jobs j (resumeFailedJob job e) } j,
         [Ev.exec j, Ev.write j JStatus.failed])
    | Except.ok res =>
        if j ∈ st.paymentInstances then
          match env.completePayment job.blockchainIdentifier res with
          | Except.ok _ =>
              (removeInstance
                 { st with jobs := updateAssoc st.jobs j (resumeCompletedJob job res) } j,
               [Ev.exec j, Ev.write j JStatus.completed])
          | Except.error e =>
              (removeInstance
                 { st with jobs := updateAssoc st.jobs j (resumeFailedJob job e) } j,
               [Ev.exec j, Ev.write j JStatus.failed])
        else
          ({ st with jobs := updateAssoc st.jobs j (resumeFailedJob job "KeyError: payment instance missing") },
           [Ev.exec j, Ev.write j JStatus.failed])

/-- The store after starting the witness job, before its confirmation. -/
def stAfterStartW : Store String :=
  (runOps envOkW (emptyStore String) [Op.start "j" inputW "bid" "pid"]).1

/-- The witness store while the confirmation handler for job j is suspended
at the await of execute_agentic_task. -/
def stMidW : Store String := (handlerEntry stAfterStartW "j").1

/-- The final context of the witness image-failure graph run. -/
def pStateFinW : PState :=
  match runContentGraph graphEnvImageFail pStateW with
  | Except.ok f => f
  | Except.error _ => pStateW

/-- Concrete poll oracle that never reaches a terminal status. -/
def pollOracleNever : Nat → PollResponse := fun _ => ⟨200, some "pending"⟩

/-- Concrete poll oracle: pending once, then terminal failed. -/
def pollOracleFailW : Nat → PollResponse :=
  fun n => if n = 1 then ⟨200, some "pending"⟩ else ⟨200, some "failed"⟩

/-- Concrete poll oracle whose second response is an HTTP 500. -/
def pollOracleHttpW : Nat → PollResponse :=
  fun n => if n = 1 then ⟨200, some "pending"⟩ else ⟨500, none⟩

/-! ## Lemmas -/

theorem lookupAssoc_updateAssoc_self {β : Type} (l : List (String × β)) (j : String) (r : β) :
    lookupAssoc (updateAssoc l j r) j = some r := by
  induction l with
  | nil => simp [updateAssoc, lookupAssoc]
  | cons kv rest ih =>
      obtain ⟨k, v⟩ := kv
      by_cases h : k = j
      · simp [updateAssoc, h, lookupAssoc]
      · simp [updateAssoc, h, lookupAssoc, ih]

theorem lookupAssoc_updateAssoc_ne {β : Type} (l : List (String × β)) (j x : String) (r : β)
    (h : x ≠ j) : lookupAssoc (updateAssoc l j r) x = lookupAssoc l x := by
  have hjx : j ≠ x := Ne.symm h
  induction l with
  | nil => simp [updateAssoc, lookupAssoc, hjx]
  | cons kv rest ih =>
      obtain ⟨k, v⟩ := kv
      by_cases hk : k = j
      · subst hk
        simp [updateAssoc, lookupAssoc, hjx]
      · simp [updateAssoc, hk, lookupAssoc, ih]

theorem startJob_present {α : Type} (st : Store α) (j : String) (input : InputData)
    (bid pid : String) (h : (lookupJob st j).isSome) :
    startJob st j input bid pid = (st, []) := by
  simp [startJob, h]

theorem startJob_fresh {α : Type} (st : Store α) (j : String) (input : InputData)
    (bid pid : String) (h : lookupJob st j = none) :
    startJob st j input bid pid =
      ({ jobs := updateAssoc st.jobs j
           ⟨JStatus.awaitingPayment, some "pending", bid, input, none, pid, none⟩,
         paymentInstances := j :: st.paymentInstances },
       [Ev.write j JStatus.awaitingPayment]) := by
  simp [startJob, h]

theorem handlePayment_absent {α : Type} (env : SysEnv α) (st : Store α) (j : String)
    (h : lookupJob st j = none) : handlePayment env st j = (st, []) := by
  simp [handlePayment, h]

theorem handlePayment_present {α : Type} (env : SysEnv α) (st : Store α) (j : String)
    (job : JobRecord α) (hr : lookupJob st j = some job) :
    ∃ r2 : JobRecord α,
      (r2.status = JStatus.completed ∨ r2.status = JStatus.failed) ∧
      (handlePayment env st j).1.jobs = updateAssoc st.jobs j r2 ∧
      (handlePayment env st j).1.paymentInstances
        = st.paymentInstances.filter (fun x => decide (x ≠ j)) ∧
      (handlePayment env st j).2 = [Ev.write j JStatus.running, Ev.exec j, Ev.write j r2.status] ∧
      r2.inputData = processInput job.inputData := by
  have hfilter : st.paymentInstances.filter (fun x => decide (x ≠ j)) = st.paymentInstances
      ∨ j ∈ st.paymentInstances := by
    by_cases hmem : j ∈ st.paymentInstances
    · exact Or.inr hmem
    · refine Or.inl ((List.filter_eq_self).mpr (fun a ha => ?_))
      simp only [decide_eq_true_eq]
      intro haj
      exact hmem (haj ▸ ha)
  simp only [handlePayment, hr]
  cases hp : env.pipeline (processInput job.inputData) with
  | error e =>
      exact ⟨failedJob job e, Or.inr rfl, rfl, rfl, rfl, rfl⟩
  | ok res =>
      by_cases hmem : j ∈ st.paymentInstances
      · cases hc : env.completePayment job.blockchainIdentifier res with
        | ok u =>
            refine ⟨completedJob job res, Or.inl rfl, ?_, ?_, ?_, rfl⟩ <;>
              simp [hmem, hc, removeInstance, completedJob]
        | error e =>
            refine ⟨failedJob job e, Or.inr rfl, ?_, ?_, ?_, rfl⟩ <;>
              simp [hmem, hc, removeInstance, failedJob]
      · refine ⟨failedJob job "KeyError: payment instance missing",
                Or.inr rfl, ?_, ?_, ?_, rfl⟩
        · simp only [if_neg hmem]
        · simp only [if_neg hmem]
          exact (hfilter.resolve_right hmem).symm
        · simp only [if_neg hmem]
          simp [failedJob]

theorem getStatus_absent {α : Type} (env : SysEnv α) (st : Store α) (j : String)
    (h : lookupJob st j = none) : getStatus env st j = (none, st) := by
  simp [getStatus, h]

theorem getStatus_present {α : Type} (env : SysEnv α) (st : Store α) (j : String)
    (job : JobRecord α) (hr : lookupJob st j = some job) :
    ∃ job2 : JobRecord α,
      job2.status = job.status ∧ job2.inputData = job.inputData ∧ job2.result = job.result ∧
      (getStatus env st j).2.jobs = updateAssoc st.jobs j job2 ∧
      (getStatus env st j).2.paymentInstances = st.paymentInstances := by
  refine ⟨liveJob env st j job, ?_, ?_, ?_, ?_, ?_⟩ <;>
    simp only [getStatus, liveJob, hr]
  · by_cases hmem : j ∈ st.paymentInstances <;>
      cases hco : env.checkPayment j <;> simp [hmem, hco]
  · by_cases hmem : j ∈ st.paymentInstances <;>
      cases hco : env.checkPayment j <;> simp [hmem, hco]
  · by_cases hmem : j ∈ st.paymentInstances <;>
      cases hco : env.checkPayment j <;> simp [hmem, hco]

theorem lookupJob_stepOp_ne {α : Type} (env : SysEnv α) (st : Store α) (op : Op) (j : String)
    (h : opKey op ≠ j) : lookupJob (stepOp env st op).1 j = lookupJob st j := by
  cases op with
  | start j2 input bid pid =>
      by_cases hs : (lookupJob st j2).isSome
      · simp only [stepOp]
        rw [startJob_present st j2 input bid pid hs]
      · simp only [stepOp]
        rw [startJob_fresh st j2 input bid pid (Option.not_isSome_iff_eq_none.mp hs)]
        exact lookupAssoc_updateAssoc_ne _ _ _ _ (Ne.symm h)
  | handle j2 =>
      cases hl : lookupJob st j2 with
      | none =>
          simp only [stepOp]
          rw [handlePayment_absent env st j2 hl]
      | some job =>
          obtain ⟨r2, _, hjobs, _, _, _⟩ := handlePayment_present env st j2 job hl
          show lookupAssoc (handlePayment env st j2).1.jobs j = _
          rw [hjobs]
          exact lookupAssoc_updateAssoc_ne _ _ _ _ (Ne.symm h)
  | query j2 =>
      cases hl : lookupJob st j2 with
      | none =>
          simp only [stepOp]
          rw [getStatus_absent env st j2 hl]
      | some job =>
          obtain ⟨job2, _, _, _, hjobs, _⟩ := getStatus_present env st j2 job hl
          show lookupAssoc (getStatus env st j2).2.jobs j = _
          rw [hjobs]
          exact lookupAssoc_updateAssoc_ne _ _ _ _ (Ne.symm h)

theorem lookupJob_stepOp_isSome {α : Type} (env : SysEnv α) (st : Store α) (op : Op) (j : String)
    (h : (lookupJob st j).isSome) : (lookupJob (stepOp env st op).1 j).isSome := by
  by_cases hk : opKey op = j
  · cases op with
    | start j2 input bid pid =>
        have hj2 : j2 = j := hk
        subst hj2
        simp only [stepOp]
        rw [startJob_present st j2 input bid pid h]
        exact h
    | handle j2 =>
        have hj2 : j2 = j := hk
        subst hj2
        obtain ⟨job, hl⟩ := Option.isSome_iff_exists.mp h
        obtain ⟨r2, _, hjobs, _, _, _⟩ := handlePayment_present env st j2 job hl
        show (lookupAssoc (handlePayment env st j2).1.jobs j2).isSome
        rw [hjobs, lookupAssoc_updateAssoc_self]
        rfl
    | query j2 =>
        have hj2 : j2 = j := hk
        subst hj2
        obtain ⟨job, hl⟩ := Option.isSome_iff_exists.mp h
        obtain ⟨job2, _, _, _, hjobs, _⟩ := getStatus_present env st j2 job hl
        show (lookupAssoc (getStatus env st j2).2.jobs j2).isSome
        rw [hjobs, lookupAssoc_updateAssoc_self]
        rfl
  · rw [lookupJob_stepOp_ne env st op j hk]
    exact h

theorem writesOf_append (a b : List Ev) (j : String) :
    writesOf (a ++ b) j = writesOf a j ++ writesOf b j := by
  simp [writesOf, List.filterMap_append]

theorem runOps_cons {α : Type} (env : SysEnv α) (st : Store α) (op : Op) (ops : List Op) :
    runOps env st (op :: ops) =
      ((runOps env (stepOp env st op).1 ops).1,
       (stepOp env st op).2 ++ (runOps env (stepOp env st op).1 ops).2) := rfl

theorem stepOp_writes_ne {α : Type} (env : SysEnv α) (st : Store α) (op : Op) (j : String)
    (h : opKey op ≠ j) : writesOf (stepOp env st op).2 j = [] := by
  cases op with
  | start j2 input bid pid =>
      have hj : j2 ≠ j := h
      by_cases hs : (lookupJob st j2).isSome
      · simp only [stepOp]
        rw [startJob_present st j2 input bid pid hs]
        rfl
      · simp only [stepOp]
        rw [startJob_fresh st j2 input bid pid (Option.not_isSome_iff_eq_none.mp hs)]
        simp [writesOf, hj]
  | handle j2 =>
      have hj : j2 ≠ j := h
      cases hl : lookupJob st j2 with
      | none =>
          simp only [stepOp]
          rw [handlePayment_absent env st j2 hl]
          rfl
      | some job =>
          obtain ⟨r2, _, _, _, hevs, _⟩ := handlePayment_present env st j2 job hl
          show writesOf (handlePayment env st j2).2 j = []
          rw [hevs]
          simp [writesOf, hj]
  | query j2 => rfl

theorem handle_step_present {α : Type} (env : SysEnv α) (st : Store α) (j : String)
    (job : JobRecord α) (hr : lookupJob st j = some job) :
    ∃ r2 : JobRecord α,
      (r2.status = JStatus.completed ∨ r2.status = JStatus.failed) ∧
      lookupJob (handlePayment env st j).1 j = some r2 ∧
      writesOf (handlePayment env st j).2 j = [JStatus.running, r2.status] ∧
      r2.inputData = processInput job.inputData := by
  obtain ⟨r2, hterm, hjobs, _, hevs, hinput⟩ := handlePayment_present env st j job hr
  refine ⟨r2, hterm, ?_, ?_, hinput⟩
  · show lookupAssoc (handlePayment env st j).1.jobs j = some r2
    rw [hjobs, lookupAssoc_updateAssoc_self]
  · rw [hevs]
    simp [writesOf]

theorem countHandle_le_cons {ops : List Op} {op : Op} {j : String} :
    countHandle ops j ≤ countHandle (op :: ops) j := by
  cases op with
  | start j2 input bid pid => simp [countHandle]
  | handle j2 => simp [countHandle]
  | query j2 => simp [countHandle]

theorem countHandle_handle_self (ops : List Op) (j : String) :
    countHandle (Op.handle j :: ops) j = countHandle ops j + 1 := by
  simp [countHandle, Nat.add_comm]

theorem runOps_writes_nil {α : Type} (env : SysEnv α) :
    ∀ (ops : List Op) (st : Store α) (j : String),
      (lookupJob st j).isSome → countHandle ops j = 0 →
      writesOf (runOps env st ops).2 j = [] := by
  intro ops
  induction ops with
  | nil => intro st j _ _; rfl
  | cons op ops ih =>
      intro st j h hc
      have hcount : countHandle ops j = 0 := by
        exact Nat.le_zero.mp (hc ▸ countHandle_le_cons)
      have hrest := ih (stepOp env st op).1 j (lookupJob_stepOp_isSome env st op j h) hcount
      have hstep : writesOf (stepOp env st op).2 j = [] := by
        by_cases hk : opKey op = j
        · cases op with
          | start j2 input bid pid =>
              have hj2 : j2 = j := hk
              subst hj2
              simp only [stepOp]
              rw [startJob_present st j2 input bid pid h]
              rfl
          | handle j2 =>
              exfalso
              have hj2 : j2 = j := hk
              subst hj2
              rw [countHandle_handle_self] at hc
              exact Nat.succ_ne_zero _ hc
          | query j2 => rfl
        · exact stepOp_writes_ne env st op j hk
      rw [runOps_cons, writesOf_append, hstep, hrest]
      rfl

theorem runOps_writes_present {α : Type} (env : SysEnv α) :
    ∀ (ops : List Op) (st : Store α) (j : String),
      (lookupJob st j).isSome → countHandle ops j ≤ 1 →
      writesOf (runOps env st ops).2 j = [] ∨
      ∃ t, (t = JStatus.completed ∨ t = JStatus.failed) ∧
        writesOf (runOps env st ops).2 j = [JStatus.running, t] := by
  intro ops
  induction ops with
  | nil => intro st j _ _; exact Or.inl rfl
  | cons op ops ih =>
      intro st j h hc
      by_cases hk : opKey op = j
      · cases op with
        | start j2 input bid pid =>
            have hj2 : j2 = j := hk
            subst hj2
            have hstep : stepOp env st (Op.start j2 input bid pid) = (st, []) := by
              simp only [stepOp]
              exact startJob_present st j2 input bid pid h
            have hrest := ih st j2 h (le_trans countHandle_le_cons hc)
            rw [runOps_cons, writesOf_append, hstep]
            simpa [writesOf] using hrest
        | handle j2 =>
            have hj2 : j2 = j := hk
            subst hj2
            obtain ⟨job, hl⟩ := Option.isSome_iff_exists.mp h
            obtain ⟨r2, hterm, hpost, hw, _⟩ := handle_step_present env st j2 job hl
            have hc0 : countHandle ops j2 = 0 := by
              rw [countHandle_handle_self] at hc
              omega
            have hrest := runOps_writes_nil env ops (stepOp env st (Op.handle j2)).1 j2
              (by simp only [stepOp]; rw [hpost]; rfl) hc0
            rw [runOps_cons, writesOf_append, hrest]
            refine Or.inr ⟨r2.status, hterm, ?_⟩
            show writesOf (handlePayment env st j2).2 j2 ++ [] = _
            rw [hw]
            rfl
        | query j2 =>
            have hj2 : j2 = j := hk
            subst hj2
            have hrest := ih (stepOp env st (Op.query j2)).1 j2
              (lookupJob_stepOp_isSome env st (Op.query j2) j2 h)
              (le_trans countHandle_le_cons hc)
            rw [runOps_cons, writesOf_append,
                show writesOf (stepOp env st (Op.query j2)).2 j2 = [] from rfl]
            simpa using hrest
      · have hcount : countHandle ops j ≤ 1 := le_trans countHandle_le_cons hc
        have hrest := ih (stepOp env st op).1 j (lookupJob_stepOp_isSome env st op j h) hcount
        rw [runOps_cons, writesOf_append, stepOp_writes_ne env st op j hk]
        simpa using hrest

theorem runOps_writes_absent {α : Type} (env : SysEnv α) :
    ∀ (ops : List Op) (st : Store α) (j : String),
      lookupJob st j = none → countHandle ops j ≤ 1 →
      writesOf (runOps env st ops).2 j = [] ∨
      writesOf (runOps env st ops).2 j = [JStatus.awaitingPayment] ∨
      ∃ t, (t = JStatus.completed ∨ t = JStatus.failed) ∧
        writesOf (runOps env st ops).2 j =
          [JStatus.awaitingPayment, JStatus.running, t] := by
  intro ops
  induction ops with
  | nil => intro st j _ _; exact Or.inl rfl
  | cons op ops ih =>
      intro st j h hc
      by_cases hk : opKey op = j
      · cases op with
        | start j2 input bid pid =>
            have hj2 : j2 = j := hk
            subst hj2
            have hfresh := startJob_fresh st j2 input bid pid h
            have hstep : stepOp env st (Op.start j2 input bid pid) =
                ({ jobs := updateAssoc st.jobs j2
                     ⟨JStatus.awaitingPayment, some "pending", bid, input, none, pid, none⟩,
                   paymentInstances := j2 :: st.paymentInstances },
                 [Ev.write j2 JStatus.awaitingPayment]) := by
              simp only [stepOp]
              exact hfresh
            have hpresent : (lookupJob (stepOp env st (Op.start j2 input bid pid)).1 j2).isSome := by
              rw [hstep]
              show (lookupAssoc (updateAssoc st.jobs j2 _) j2).isSome
              rw [lookupAssoc_updateAssoc_self]
              rfl
            have hrest := runOps_writes_present env ops _ j2 hpresent
              (le_trans countHandle_le_cons hc)
            have hw1 : writesOf (stepOp env st (Op.start j2 input bid pid)).2 j2 =
                [JStatus.awaitingPayment] := by
              rw [hstep]
              simp [writesOf]
            rw [runOps_cons, writesOf_append, hw1]
            rcases hrest with hrest | ⟨t, hterm, hrest⟩
            · rw [hrest]
              exact Or.inr (Or.inl rfl)
            · rw [hrest]
              exact Or.inr (Or.inr ⟨t, hterm, rfl⟩)
        | handle j2 =>
            have hj2 : j2 = j := hk
            subst hj2
            have hstep : stepOp env st (Op.handle j2) = (st, []) := by
              simp only [stepOp]
              exact handlePayment_absent env st j2 h
            have hc2 : countHandle ops j2 ≤ 1 := by
              rw [countHandle_handle_self] at hc
              omega
            have hrest := ih st j2 h hc2
            rw [runOps_cons, writesOf_append, hstep]
            simpa [writesOf] using hrest
        | query j2 =>
            have hj2 : j2 = j := hk
            subst hj2
            have hstep : stepOp env st (Op.query j2) = (st, []) := by
              simp only [stepOp]
              rw [getStatus_absent env st j2 h]
            have hrest := ih st j2 h (le_trans countHandle_le_cons hc)
            rw [runOps_cons, writesOf_append, hstep]
            simpa [writesOf] using hrest
      · have habs : lookupJob (stepOp env st op).1 j = none := by
          rw [lookupJob_stepOp_ne env st op j hk]
          exact h
        have hrest := ih (stepOp env st op).1 j habs (le_trans countHandle_le_cons hc)
        rw [runOps_cons, writesOf_append, stepOp_writes_ne env st op j hk]
        simpa using hrest

theorem storeInv_empty (α : Type) : storeInv (emptyStore α) := by
  intro j
  simp [emptyStore, lookupJob, lookupAssoc]

theorem stepOp_storeInv {α : Type} (env : SysEnv α) (st : Store α) (op : Op)
    (h : storeInv st) : storeInv (stepOp env st op).1 := by
  cases op with
  | start j2 input bid pid =>
      by_cases hs : (lookupJob st j2).isSome
      · simp only [stepOp]
        rw [startJob_present st j2 input bid pid hs]
        exact h
      · have hnone := Option.not_isSome_iff_eq_none.mp hs
        have hjobs : (stepOp env st (Op.start j2 input bid pid)).1.jobs =
            updateAssoc st.jobs j2
              ⟨JStatus.awaitingPayment, some "pending", bid, input, none, pid, none⟩ := by
          simp only [stepOp]
          rw [startJob_fresh st j2 input bid pid hnone]
        have hinst : (stepOp env st (Op.start j2 input bid pid)).1.paymentInstances =
            j2 :: st.paymentInstances := by
          simp only [stepOp]
          rw [startJob_fresh st j2 input bid pid hnone]
        intro x
        show x ∈ (stepOp env st (Op.start j2 input bid pid)).1.paymentInstances ↔
          ∃ r, lookupAssoc (stepOp env st (Op.start j2 input bid pid)).1.jobs x = some r ∧
            r.status = JStatus.awaitingPayment
        rw [hinst, hjobs]
        by_cases hx : x = j2
        · subst hx
          constructor
          · intro _
            exact ⟨_, lookupAssoc_updateAssoc_self _ _ _, rfl⟩
          · intro _
            exact List.mem_cons_self _ _
        · rw [lookupAssoc_updateAssoc_ne _ _ _ _ hx]
          constructor
          · intro hm
            rcases List.mem_cons.mp hm with hm | hm
            · exact absurd hm hx
            · exact (h x).mp hm
          · intro he
            exact List.mem_cons_of_mem _ ((h x).mpr he)
  | handle j2 =>
      cases hl : lookupJob st j2 with
      | none =>
          simp only [stepOp]
          rw [handlePayment_absent env st j2 hl]
          exact h
      | some job =>
          obtain ⟨r2, hterm, hjobs, hinst, _, _⟩ := handlePayment_present env st j2 job hl
          intro x
          show x ∈ (handlePayment env st j2).1.paymentInstances ↔
            ∃ r, lookupAssoc (handlePayment env st j2).1.jobs x = some r ∧
              r.status = JStatus.awaitingPayment
          rw [hinst, hjobs]
          by_cases hx : x = j2
          · subst hx
            rw [lookupAssoc_updateAssoc_self]
            constructor
            · intro hm
              have := (List.mem_filter.mp hm).2
              simp at this
            · intro ⟨r, hr, hst⟩
              injection hr with hr
              subst hr
              rcases hterm with ht | ht <;> rw [ht] at hst <;> exact absurd hst (by intro hh; exact JStatus.noConfusion hh)
          · rw [lookupAssoc_updateAssoc_ne _ _ _ _ hx]
            constructor
            · intro hm
              exact (h x).mp (List.mem_filter.mp hm).1
            · intro he
              refine List.mem_filter.mpr ⟨(h x).mpr he, ?_⟩
              simp [hx]
  | query j2 =>
      cases hl : lookupJob st j2 with
      | none =>
          simp only [stepOp]
          rw [getStatus_absent env st j2 hl]
          exact h
      | some job =>
          obtain ⟨job2, hstat, _, _, hjobs, hinst⟩ := getStatus_present env st j2 job hl
          intro x
          show x ∈ (getStatus env st j2).2.paymentInstances ↔
            ∃ r, lookupAssoc (getStatus env st j2).2.jobs x = some r ∧
              r.status = JStatus.awaitingPayment
          rw [hinst, hjobs]
          by_cases hx : x = j2
          · subst hx
            rw [lookupAssoc_updateAssoc_self]
            have hbase := h x
            rw [hl] at hbase
            constructor
            · intro hm
              obtain ⟨r, hr, hst⟩ := hbase.mp hm
              injection hr with hr
              subst hr
              exact ⟨job2, rfl, by rw [hstat]; exact hst⟩
            · intro ⟨r, hr, hst⟩
              injection hr with hr
              subst hr
              exact hbase.mpr ⟨job, rfl, by rw [← hstat]; exact hst⟩
          · rw [lookupAssoc_updateAssoc_ne _ _ _ _ hx]
            exact h x

theorem runOps_storeInv {α : Type} (env : SysEnv α) :
    ∀ (ops : List Op) (st : Store α), storeInv st → storeInv (runOps env st ops).1 := by
  intro ops
  induction ops with
  | nil => intro st h; exact h
  | cons op ops ih =>
      intro st h
      rw [runOps_cons]
      exact ih _ (stepOp_storeInv env st op h)

theorem processKeywords_idem (k : KwVal) :
    processKeywords (processKeywords k) = processKeywords k := by
  cases k <;> rfl

theorem inputFrame_refl (a : InputData) : inputFrame a a :=
  ⟨rfl, rfl, rfl, rfl, Or.inl rfl⟩

theorem inputFrame_process (a : InputData) : inputFrame a (processInput a) :=
  ⟨rfl, rfl, rfl, rfl, Or.inr rfl⟩

theorem inputFrame_trans (a b c : InputData) (hab : inputFrame a b) (hbc : inputFrame b c) :
    inputFrame a c := by
  obtain ⟨h1, h2, h3, h4, h5⟩ := hab
  obtain ⟨g1, g2, g3, g4, g5⟩ := hbc
  refine ⟨g1.trans h1, g2.trans h2, g3.trans h3, g4.trans h4, ?_⟩
  rcases h5 with h5 | h5 <;> rcases g5 with g5 | g5
  · exact Or.inl (g5.trans h5)
  · exact Or.inr (by rw [g5, h5])
  · exact Or.inr (g5.trans h5)
  · refine Or.inr ?_
    rw [g5, h5, processKeywords_idem]

theorem stepOp_inputFrame {α : Type} (env : SysEnv α) (st : Store α) (op : Op) (j : String)
    (job : JobRecord α) (hr : lookupJob st j = some job) :
    ∃ job2, lookupJob (stepOp env st op).1 j = some job2 ∧
      inputFrame job.inputData job2.inputData := by
  by_cases hk : opKey op = j
  · cases op with
    | start j2 input bid pid =>
        have hj2 : j2 = j := hk
        subst hj2
        have hs : (lookupJob st j2).isSome := by rw [hr]; rfl
        have hstep : stepOp env st (Op.start j2 input bid pid) = (st, []) := by
          simp only [stepOp]
          exact startJob_present st j2 input bid pid hs
        rw [hstep]
        exact ⟨job, hr, inputFrame_refl _⟩
    | handle j2 =>
        have hj2 : j2 = j := hk
        subst hj2
        obtain ⟨r2, _, hpost, _, hinput⟩ := handle_step_present env st j2 job hr
        refine ⟨r2, hpost, ?_⟩
        rw [hinput]
        exact inputFrame_process _
    | query j2 =>
        have hj2 : j2 = j := hk
        subst hj2
        obtain ⟨job2, _, hinput, _, hjobs, _⟩ := getStatus_present env st j2 job hr
        refine ⟨job2, ?_, ?_⟩
        · show lookupAssoc (getStatus env st j2).2.jobs j2 = some job2
          rw [hjobs, lookupAssoc_updateAssoc_self]
        · rw [hinput]
          exact inputFrame_refl _
  · rw [lookupJob_stepOp_ne env st op j hk]
    exact ⟨job, hr, inputFrame_refl _⟩

theorem runOps_inputFrame {α : Type} (env : SysEnv α) :
    ∀ (ops : List Op) (st : Store α) (j : String) (job : JobRecord α),
      lookupJob st j = some job →
      ∃ job2, lookupJob (runOps env st ops).1 j = some job2 ∧
        inputFrame job.inputData job2.inputData := by
  intro ops
  induction ops with
  | nil => intro st j job hr; exact ⟨job, hr, inputFrame_refl _⟩
  | cons op ops ih =>
      intro st j job hr
      obtain ⟨job1, hr1, hf1⟩ := stepOp_inputFrame env st op j job hr
      obtain ⟨job2, hr2, hf2⟩ := ih (stepOp env st op).1 j job1 hr1
      rw [runOps_cons]
      exact ⟨job2, hr2, inputFrame_trans _ _ _ hf1 hf2⟩

/-! Lemmas about the polling loop. -/

theorem waitLoop_polls_le (oracle : Nat → PollResponse) :
    ∀ (fuel attempt polls : Nat) (last : Option PollResponse),
      (waitLoop oracle fuel attempt polls last).2 ≤ polls + fuel := by
  intro fuel
  induction fuel with
  | zero => intro attempt polls last; simp [waitLoop]
  | succ f ih =>
      intro attempt polls last
      show (waitLoop oracle (f + 1) attempt polls last).2 ≤ polls + (f + 1)
      rw [waitLoop]
      by_cases h1 : 400 ≤ (oracle attempt).httpStatus
      · simp only [if_pos h1]
        omega
      · simp only [if_neg h1]
        by_cases h2 : (oracle attempt).status = some "completed"
        · simp only [if_pos h2]
          omega
        · simp only [if_neg h2]
          by_cases h3 : (oracle attempt).status = some "failed"
          · simp only [if_pos h3]
            omega
          · simp only [if_neg h3]
            have := ih (attempt + 1) (polls + 1) (some (oracle attempt))
            omega

theorem waitLoop_step (oracle : Nat → PollResponse) (f attempt polls : Nat)
    (last : Option PollResponse) (h : NonTerminal (oracle attempt)) :
    waitLoop oracle (f + 1) attempt polls last =
      waitLoop oracle f (attempt + 1) (polls + 1) (some (oracle attempt)) := by
  obtain ⟨h1, h2, h3⟩ := h
  rw [waitLoop]
  simp only [if_neg (Nat.not_le.mpr h1), if_neg h2, if_neg h3]

theorem waitLoop_skip (oracle : Nat → PollResponse) :
    ∀ (k fuel attempt polls : Nat) (last : Option PollResponse),
      (∀ i, i < k → NonTerminal (oracle (attempt + i))) → k ≤ fuel →
      ∃ l, waitLoop oracle fuel attempt polls last =
        waitLoop oracle (fuel - k) (attempt + k) (polls + k) l := by
  intro k
  induction k with
  | zero =>
      intro fuel attempt polls last _ _
      exact ⟨last, by simp⟩
  | succ k ih =>
      intro fuel attempt polls last hnt hk
      obtain ⟨f, rfl⟩ : ∃ f, fuel = f + 1 := ⟨fuel - 1, by omega⟩
      have h0 : NonTerminal (oracle attempt) := by
        have := hnt 0 (Nat.succ_pos k)
        simpa using this
      rw [waitLoop_step oracle f attempt polls last h0]
      have hnt2 : ∀ i, i < k → NonTerminal (oracle (attempt + 1 + i)) := by
        intro i hi
        have := hnt (i + 1) (by omega)
        have harith : attempt + (i + 1) = attempt + 1 + i := by omega
        rwa [harith] at this
      obtain ⟨l, hl⟩ := ih f (attempt + 1) (polls + 1) (some (oracle attempt)) hnt2 (by omega)
      refine ⟨l, ?_⟩
      rw [hl]
      have e1 : f - k = f + 1 - (k + 1) := by omega
      have e2 : attempt + 1 + k = attempt + (k + 1) := by omega
      have e3 : polls + 1 + k = polls + (k + 1) := by omega
      rw [e1, e2, e3]

/-! Lemmas about the retry loop. -/

theorem retryLoop_succ_ok {α : Type} (op : Nat → Except String α) (f attempt delay : Nat)
    (lastErr : Option String) (sleeps : List Nat) (calls : Nat) (v : α)
    (h : op attempt = Except.ok v) :
    retryLoop op (f + 1) attempt delay lastErr sleeps calls =
      ⟨Except.ok v, sleeps.reverse, calls + 1⟩ := by
  rw [retryLoop, h]

theorem retryLoop_succ_err {α : Type} (op : Nat → Except String α) (f attempt delay : Nat)
    (lastErr : Option String) (sleeps : List Nat) (calls : Nat) (e : String)
    (h : op attempt = Except.error e) :
    retryLoop op (f + 1) attempt delay lastErr sleeps calls =
      retryLoop op f (attempt + 1) (delay * 2) (some e) (delay :: sleeps) (calls + 1) := by
  rw [retryLoop, h]

theorem updateAssoc_updateAssoc {β : Type} (l : List (String × β)) (j : String) (r1 r2 : β) :
    updateAssoc (updateAssoc l j r1) j r2 = updateAssoc l j r2 := by
  induction l with
  | nil => simp [updateAssoc]
  | cons kv rest ih =>
      obtain ⟨k, v⟩ := kv
      by_cases hk : k = j
      · simp [updateAssoc, hk]
      · simp [updateAssoc, hk, ih]

theorem resumeFailedJob_runningJob {α : Type} (job : JobRecord α) (e : String) :
    resumeFailedJob (runningJob job) e = failedJob job e := rfl

theorem resumeCompletedJob_runningJob {α : Type} (job : JobRecord α) (res : α) :
    resumeCompletedJob (runningJob job) res = completedJob job res := rfl

theorem handlePayment_decompose {α : Type} (env : SysEnv α) (st : Store α) (j : String) :
    handlePayment env st j =
      ((handlerResume env (handlerEntry st j).1 j).1,
       (handlerEntry st j).2 ++ (handlerResume env (handlerEntry st j).1 j).2) := by
  cases hl : lookupJob st j with
  | none =>
      have he : handlerEntry st j = (st, []) := by simp [handlerEntry, hl]
      have hres : handlerResume env st j = (st, []) := by simp [handlerResume, hl]
      rw [handlePayment_absent env st j hl, he, hres]
      rfl
  | some job =>
      have he : handlerEntry st j =
          ({ st with jobs := updateAssoc st.jobs j (runningJob job) },
           [Ev.write j JStatus.running]) := by
        simp [handlerEntry, hl]
      rw [he]
      have hl2 : lookupJob ({ st with jobs := updateAssoc st.jobs j (runningJob job) } : Store α)
          j = some (runningJob job) := lookupAssoc_updateAssoc_self _ _ _
      simp only [handlePayment, handlerResume, hl, hl2]
      have hinp : (runningJob job).inputData = processInput job.inputData := rfl
      have hbid : (runningJob job).blockchainIdentifier = job.blockchainIdentifier := rfl
      rw [hinp, hbid]
      cases hp : env.pipeline (processInput job.inputData) with
      | error e =>
          simp only [removeInstance, updateAssoc_updateAssoc, resumeFailedJob_runningJob]
          rfl
      | ok res =>
          by_cases hmem : j ∈ st.paymentInstances
          · simp only [if_pos hmem]
            cases hc : env.completePayment job.blockchainIdentifier res with
            | ok u =>
                simp only [removeInstance, updateAssoc_updateAssoc,
                  resumeCompletedJob_runningJob]
                rfl
            | error e =>
                simp only [removeInstance, updateAssoc_updateAssoc,
                  resumeFailedJob_runningJob]
                rfl
          · simp only [if_neg hmem]
            simp only [updateAssoc_updateAssoc, resumeFailedJob_runningJob]
            rfl

theorem liveJob_status {α : Type} (env : SysEnv α) (st : Store α) (j : String)
    (job : JobRecord α) : (liveJob env st j job).status = job.status := by
  unfold liveJob
  by_cases hmem : j ∈ st.paymentInstances
  · simp only [if_pos hmem]
    cases env.checkPayment j <;> rfl
  · simp only [if_neg hmem]

theorem handlePayment_ok_ok {α : Type} (env : SysEnv α) (st : Store α) (j : String)
    (job : JobRecord α) (v : α) (hr : lookupJob st j = some job)
    (hmem : j ∈ st.paymentInstances)
    (hp : env.pipeline (processInput job.inputData) = Except.ok v)
    (hc : env.completePayment job.blockchainIdentifier v = Except.ok ()) :
    lookupJob (handlePayment env st j).1 j = some (completedJob job v) := by
  simp only [handlePayment, hr, hp, hc, if_pos hmem]
  show lookupAssoc (updateAssoc st.jobs j (completedJob job v)) j = some (completedJob job v)
  exact lookupAssoc_updateAssoc_self _ _ _

theorem handlePayment_ok_err {α : Type} (env : SysEnv α) (st : Store α) (j : String)
    (job : JobRecord α) (v : α) (e : String) (hr : lookupJob st j = some job)
    (hmem : j ∈ st.paymentInstances)
    (hp : env.pipeline (processInput job.inputData) = Except.ok v)
    (hc : env.completePayment job.blockchainIdentifier v = Except.error e) :
    lookupJob (handlePayment env st j).1 j = some (failedJob job e) := by
  simp only [handlePayment, hr, hp, hc, if_pos hmem]
  show lookupAssoc (updateAssoc st.jobs j (failedJob job e)) j = some (failedJob job e)
  exact lookupAssoc_updateAssoc_self _ _ _

/-! ## Claim theorems -/

/-- C1. The payment-confirmation handler has no idempotence guard: delivering
the confirmation callback twice for the same job makes handle_payment_status
execute the pipeline (execute_agentic_task) a second time — the second call
is not rejected via the lifecycle state — and the duplicate run then marks
the already-completed job failed (the payment instance was deleted by the
first run, so complete_payment hits a KeyError). -/
theorem duplicate_confirmation_reexecutes_pipeline :
    execCount (runOps envOkW (emptyStore String) opsDup).2 "j" = 2 ∧
    (lookupJob (runOps envOkW (emptyStore String) opsDup).1 "j").map JobRecord.status =
      some JStatus.failed := by
  constructor
  · rfl
  · rfl

/-- C2, counterexample. On the duplicate-confirmation trace the sequence of
status values written for the job is awaiting_payment, running, completed,
running, failed: the fourth write moves the status backwards from completed
to running, so the claimed monotonicity fails as stated. -/
theorem status_writes_nonmonotone_on_duplicate_confirmation :
    writesOf (runOps envOkW (emptyStore String) opsDup).2 "j" =
      [JStatus.awaitingPayment, JStatus.running, JStatus.completed,
       JStatus.running, JStatus.failed] ∧
    monotoneWritesB (writesOf (runOps envOkW (emptyStore String) opsDup).2 "j") = false := by
  constructor
  · rfl
  · rfl

/-- C2, amended. Provided the payment-confirmation handler is invoked at
most once per job — the situation the Payment Monitor produces when no
duplicate callback is delivered — every status value written for a job over
any sequence of start_job, handle_payment_status and get_status operations
moves only forward along awaiting_payment, running, completed or failed. -/
theorem status_writes_monotone_single_confirmation (α : Type) (env : SysEnv α)
    (ops : List Op) (j : String) (h : countHandle ops j ≤ 1) :
    monotoneWritesB (writesOf (runOps env (emptyStore α) ops).2 j) = true := by
  have habs : lookupJob (emptyStore α) j = none := rfl
  rcases runOps_writes_absent env ops (emptyStore α) j habs h with h1 | h1 | ⟨t, ht, h1⟩
  · rw [h1]; rfl
  · rw [h1]; rfl
  · rw [h1]
    rcases ht with ht | ht <;> subst ht <;> rfl

/-- Witness for the amended C2 theorem at a concrete single-confirmation
trace. -/
theorem status_writes_monotone_single_confirmation_witness :
    monotoneWritesB (writesOf (runOps envOkW (emptyStore String)
      [Op.start "j" inputW "bid" "pid", Op.handle "j"]).2 "j") = true :=
  status_writes_monotone_single_confirmation String envOkW
    [Op.start "j" inputW "bid" "pid", Op.handle "j"] "j" (by decide)

/-- C3. The retry wrapper with retries = 3 and initial delay 1 s: when the
operation fails on attempts 1 and 2 and succeeds on attempt 3, it returns
the third attempt's value after sleeping 1 s then 2 s, performing exactly
three invocations; when all three attempts fail it raises a single
SerpApiError chained from the last underlying failure (the source also
sleeps 4 s after the final failed attempt before raising). -/
theorem serp_retry_backoff_spec (α : Type) (op : Nat → Except String α) (v : α)
    (e1 e2 e3 : String) :
    (op 1 = Except.error e1 → op 2 = Except.error e2 → op 3 = Except.ok v →
      requestWithRetry 3 op = ⟨Except.ok v, [1, 2], 3⟩) ∧
    (op 1 = Except.error e1 → op 2 = Except.error e2 → op 3 = Except.error e3 →
      requestWithRetry 3 op =
        ⟨Except.error ⟨"SerpAPI request failed after 3 attempts", some e3⟩, [1, 2, 4], 3⟩) := by
  constructor
  · intro h1 h2 h3
    have l1 : retryLoop op 3 1 1 none [] 0 = retryLoop op 2 2 2 (some e1) [1] 1 :=
      retryLoop_succ_err op 2 1 1 none [] 0 e1 h1
    have l2 : retryLoop op 2 2 2 (some e1) [1] 1 = retryLoop op 1 3 4 (some e2) [2, 1] 2 :=
      retryLoop_succ_err op 1 2 2 (some e1) [1] 1 e2 h2
    have l3 : retryLoop op 1 3 4 (some e2) [2, 1] 2 = ⟨Except.ok v, [1, 2], 3⟩ :=
      retryLoop_succ_ok op 0 3 4 (some e2) [2, 1] 2 v h3
    unfold requestWithRetry
    rw [l1, l2, l3]
  · intro h1 h2 h3
    have l1 : retryLoop op 3 1 1 none [] 0 = retryLoop op 2 2 2 (some e1) [1] 1 :=
      retryLoop_succ_err op 2 1 1 none [] 0 e1 h1
    have l2 : retryLoop op 2 2 2 (some e1) [1] 1 = retryLoop op 1 3 4 (some e2) [2, 1] 2 :=
      retryLoop_succ_err op 1 2 2 (some e1) [1] 1 e2 h2
    have l3 : retryLoop op 1 3 4 (some e2) [2, 1] 2 =
        retryLoop op 0 4 8 (some e3) [4, 2, 1] 3 :=
      retryLoop_succ_err op 0 3 4 (some e2) [2, 1] 2 e3 h3
    have l4 : retryLoop op 0 4 8 (some e3) [4, 2, 1] 3 =
        ⟨Except.error (some e3), [1, 2, 4], 3⟩ := rfl
    unfold requestWithRetry
    rw [l1, l2, l3, l4]
    rfl

/-- Witness for the C3 theorem at the two concrete operations. -/
theorem serp_retry_backoff_spec_witness :
    requestWithRetry 3 opFailTwice = ⟨Except.ok 7, [1, 2], 3⟩ ∧
    requestWithRetry 3 opAlwaysFail =
      ⟨Except.error ⟨"SerpAPI request failed after 3 attempts", some "g3"⟩, [1, 2, 4], 3⟩ :=
  ⟨(serp_retry_backoff_spec Nat opFailTwice 7 "f1" "f2" "g3").1 rfl rfl rfl,
   (serp_retry_backoff_spec Nat opAlwaysFail 7 "g1" "g2" "g3").2 rfl rfl rfl⟩

/-- C4, counterexample. On a run in which the image stage fails (every other
stage succeeding), the pipeline completes with the errors list still empty:
the failure is recorded only under metadata.image_error, never into
context.errors, so the claim that it is recorded into context.errors fails
as stated. -/
theorem image_failure_not_recorded_in_errors :
    graphErrorsOf graphEnvImageFail pStateW = some [] ∧
    graphMetaImageErrorOf graphEnvImageFail pStateW = some (some "boom") := by
  constructor
  · rfl
  · rfl

/-- C4, amended. When the image stage raises while all other stages succeed,
the run still completes: the failure is recorded into context.metadata under
image_error and into the image_error key (context.errors is not written),
the image output fields keep their initial absent values, the text fields
(post, hashtag_package) are populated, and a job whose pipeline is this run
finishes handle_payment_status with lifecycle status completed and the
final context stored as its result. -/
theorem image_failure_nonfatal_spec (genv : GraphEnv) (s : PState)
    (sn : List NormalizedSnippet) (r : ResearchOut) (p : Post) (ip e : String)
    (pkg : HashtagPackage)
    (hf : genv.fetchSnippets = Except.ok sn) (hr : genv.research = Except.ok r)
    (hc : genv.copy = Except.ok p) (hip : p.imagePrompt = some ip) (hne : ip ≠ "")
    (him : genv.image = Except.error e) (hh : genv.hashtags = Except.ok pkg) :
    runContentGraph genv s = Except.ok
      { s with contextSnippets := sn, insights := r.insights, researchSummary := r.summary,
               post := some p, hashtagPackage := some pkg, imageError := some e,
               metadata := { s.metadata with serpSnippetCount := some sn.length,
                                             researchSummary := some r.summary,
                                             imageError := some e } } ∧
    (∀ (st : Store PState) (j : String) (rec : JobRecord PState) (fin : PState),
      runContentGraph genv s = Except.ok fin →
      lookupJob st j = some rec → j ∈ st.paymentInstances →
      lookupJob (handlePayment
          (⟨fun _ => runContentGraph genv s, fun _ _ => Except.ok (),
            fun _ => CheckOutcome.ok none⟩ : SysEnv PState) st j).1 j =
        some (completedJob rec fin)) := by
  have hgraph : runContentGraph genv s = Except.ok
      { s with contextSnippets := sn, insights := r.insights, researchSummary := r.summary,
               post := some p, hashtagPackage := some pkg, imageError := some e,
               metadata := { s.metadata with serpSnippetCount := some sn.length,
                                             researchSummary := some r.summary,
                                             imageError := some e } } := by
    simp only [runContentGraph, bind, Except.bind, fetchSnippetsNode, synthesizeResearchNode,
      generateCopyNode, generateImageNode, generateHashtagsNode, hf, hr, hc, hip, him, hh,
      if_neg hne]
  refine ⟨hgraph, ?_⟩
  intro st j rec fin hfin hrec hmem
  exact handlePayment_ok_ok _ st j rec fin hrec hmem hfin rfl

/-- Witness for the amended C4 theorem at the concrete image-failure run. -/
theorem image_failure_nonfatal_spec_witness :
    runContentGraph graphEnvImageFail pStateW = Except.ok pStateFinW ∧
    lookupJob (handlePayment
        (⟨fun _ => runContentGraph graphEnvImageFail pStateW, fun _ _ => Except.ok (),
          fun _ => CheckOutcome.ok none⟩ : SysEnv PState) storePW "j").1 "j" =
      some (completedJob recPW pStateFinW) := by
  have h := image_failure_nonfatal_spec graphEnvImageFail pStateW
    [⟨some "T", some "L", some "S", some "test"⟩] ⟨["Insight A"], "Summary"⟩
    ⟨"Body", "HL", "Because", none, some "an image prompt"⟩ "an image prompt" "boom"
    ⟨["AI"], "test"⟩ rfl rfl rfl rfl (by decide) rfl rfl
  exact ⟨h.1, h.2 storePW "j" recPW pStateFinW h.1 rfl (by decide)⟩

/-- C5. The image polling loop performs at most max_polls status queries and
always terminates: when the first terminal event is a completed status at
attempt k+1 within the cap it returns that payload after exactly k+1
queries; a failed status or an HTTP error status at the first terminal
attempt raises the typed MasumiImageClientError there; and when every
attempt up to the cap stays non-terminal it raises the typed poll-limit
error after exactly max_polls queries rather than polling forever. -/
theorem wait_for_image_result_spec (oracle : Nat → PollResponse) (maxPolls k : Nat) :
    (waitForImageResult oracle maxPolls).2 ≤ maxPolls
  ∧ ((∀ i, i < k → NonTerminal (oracle (i + 1))) → k < maxPolls →
      (oracle (k + 1)).httpStatus < 400 → (oracle (k + 1)).status = some "completed" →
      waitForImageResult oracle maxPolls = (Except.ok (oracle (k + 1)), k + 1))
  ∧ ((∀ i, i < k → NonTerminal (oracle (i + 1))) → k < maxPolls →
      (oracle (k + 1)).httpStatus < 400 → (oracle (k + 1)).status = some "failed" →
      waitForImageResult oracle maxPolls =
        (Except.error (ImageClientError.jobFailed (oracle (k + 1))), k + 1))
  ∧ ((∀ i, i < k → NonTerminal (oracle (i + 1))) → k < maxPolls →
      400 ≤ (oracle (k + 1)).httpStatus →
      waitForImageResult oracle maxPolls =
        (Except.error (ImageClientError.httpError (oracle (k + 1)).httpStatus), k + 1))
  ∧ ((∀ i, i < maxPolls → NonTerminal (oracle (i + 1))) →
      ∃ l, waitForImageResult oracle maxPolls =
        (Except.error (ImageClientError.pollLimitExhausted l), maxPolls)) := by
  have hnt1 : ∀ (k2 : Nat), (∀ i, i < k2 → NonTerminal (oracle (i + 1))) →
      ∀ i, i < k2 → NonTerminal (oracle (1 + i)) := by
    intro k2 hnt i hi
    have := hnt i hi
    rwa [Nat.add_comm] at this
  refine ⟨?_, ?_, ?_, ?_, ?_⟩
  · have := waitLoop_polls_le oracle maxPolls 1 0 none
    simpa [waitForImageResult] using this
  · intro hnt hk hhttp hstat
    obtain ⟨l, hl⟩ := waitLoop_skip oracle k maxPolls 1 0 none (hnt1 k hnt) (le_of_lt hk)
    obtain ⟨m, hm⟩ : ∃ m, maxPolls - k = m + 1 := ⟨maxPolls - k - 1, by omega⟩
    show waitLoop oracle maxPolls 1 0 none = _
    rw [hl, hm, Nat.add_comm 1 k, Nat.zero_add, waitLoop,
        if_neg (Nat.not_le.mpr hhttp), if_pos hstat]
  · intro hnt hk hhttp hstat
    obtain ⟨l, hl⟩ := waitLoop_skip oracle k maxPolls 1 0 none (hnt1 k hnt) (le_of_lt hk)
    obtain ⟨m, hm⟩ : ∃ m, maxPolls - k = m + 1 := ⟨maxPolls - k - 1, by omega⟩
    show waitLoop oracle maxPolls 1 0 none = _
    rw [hl, hm, Nat.add_comm 1 k, Nat.zero_add, waitLoop,
        if_neg (Nat.not_le.mpr hhttp), if_neg (by rw [hstat]; decide), if_pos hstat]
  · intro hnt hk hhttp
    obtain ⟨l, hl⟩ := waitLoop_skip oracle k maxPolls 1 0 none (hnt1 k hnt) (le_of_lt hk)
    obtain ⟨m, hm⟩ : ∃ m, maxPolls - k = m + 1 := ⟨maxPolls - k - 1, by omega⟩
    show waitLoop oracle maxPolls 1 0 none = _
    rw [hl, hm, Nat.add_comm 1 k, Nat.zero_add, waitLoop, if_pos hhttp]
  · intro hnt
    obtain ⟨l, hl⟩ := waitLoop_skip oracle maxPolls maxPolls 1 0 none
      (hnt1 maxPolls hnt) (le_refl maxPolls)
    refine ⟨l, ?_⟩
    show waitLoop oracle maxPolls 1 0 none = _
    rw [hl, Nat.sub_self, Nat.zero_add, waitLoop]

/-- Witness for the C5 theorem on four concrete oracles: completion at the
third poll, terminal failure at the second, an HTTP 500 at the second, and
exhaustion of a two-poll budget. -/
theorem wait_for_image_result_spec_witness :
    (waitForImageResult pollOracleW 60).2 ≤ 60 ∧
    waitForImageResult pollOracleW 60 = (Except.ok ⟨200, some "completed"⟩, 3) ∧
    waitForImageResult pollOracleFailW 60 =
      (Except.error (ImageClientError.jobFailed ⟨200, some "failed"⟩), 2) ∧
    waitForImageResult pollOracleHttpW 60 =
      (Except.error (ImageClientError.httpError 500), 2) ∧
    (∃ l, waitForImageResult pollOracleNever 2 =
      (Except.error (ImageClientError.pollLimitExhausted l), 2)) := by
  refine ⟨(wait_for_image_result_spec pollOracleW 60 2).1, ?_, ?_, ?_, ?_⟩
  · exact (wait_for_image_result_spec pollOracleW 60 2).2.1
      (by decide) (by decide) (by decide) (by decide)
  · exact (wait_for_image_result_spec pollOracleFailW 60 1).2.2.1
      (by decide) (by decide) (by decide) (by decide)
  · exact (wait_for_image_result_spec pollOracleHttpW 60 1).2.2.2.1
      (by decide) (by decide) (by decide)
  · exact (wait_for_image_result_spec pollOracleNever 2 0).2.2.2.2 (by decide)

/-- C6, counterexample. When the live payment-status check raises a
ValueError, get_status degrades the payment_status field to unknown, not to
error, so the claim that any raising check degrades it to error fails as
stated. -/
theorem get_status_value_error_degrades_to_unknown :
    ((getStatus envValueErrW storeW "j").1).map StatusResponse.paymentStatus =
      some (some "unknown") ∧
    ((getStatus envValueErrW storeW "j").1).map StatusResponse.paymentStatus ≠
      some (some "error") := by
  constructor
  · rfl
  · decide

/-- C6, amended. For an existing job whose payment instance is still
registered: when the live check raises a non-ValueError exception the stored
and returned payment_status degrade to error, when it raises a ValueError
they degrade to unknown, and in every case get_status returns a successful
response carrying the stored lifecycle status — a provider error never makes
get_status itself fail. -/
theorem get_status_live_check_spec (α : Type) (env : SysEnv α) (st : Store α)
    (j : String) (job : JobRecord α) (e : String)
    (hr : lookupJob st j = some job) (hmem : j ∈ st.paymentInstances) :
    (env.checkPayment j = CheckOutcome.exn e →
      (getStatus env st j).1 = some ⟨j, job.status, some "error", job.result⟩ ∧
      (lookupJob (getStatus env st j).2 j).map JobRecord.paymentStatus =
        some (some "error"))
  ∧ (env.checkPayment j = CheckOutcome.valueError e →
      (getStatus env st j).1 = some ⟨j, job.status, some "unknown", job.result⟩ ∧
      (lookupJob (getStatus env st j).2 j).map JobRecord.paymentStatus =
        some (some "unknown"))
  ∧ ((getStatus env st j).1.map StatusResponse.status = some job.status) := by
  have hjobs : (getStatus env st j).2.jobs = updateAssoc st.jobs j (liveJob env st j job) := by
    simp only [getStatus, hr]
  refine ⟨?_, ?_, ?_⟩
  · intro hco
    have hlj : liveJob env st j job = { job with paymentStatus := some "error" } := by
      simp [liveJob, hmem, hco]
    constructor
    · simp only [getStatus, hr, hlj]
    · show (lookupAssoc (getStatus env st j).2.jobs j).map JobRecord.paymentStatus = _
      rw [hjobs, lookupAssoc_updateAssoc_self, hlj]
      rfl
  · intro hco
    have hlj : liveJob env st j job = { job with paymentStatus := some "unknown" } := by
      simp [liveJob, hmem, hco]
    constructor
    · simp only [getStatus, hr, hlj]
    · show (lookupAssoc (getStatus env st j).2.jobs j).map JobRecord.paymentStatus = _
      rw [hjobs, lookupAssoc_updateAssoc_self, hlj]
      rfl
  · simp only [getStatus, hr]
    show some (liveJob env st j job).status = some job.status
    rw [liveJob_status]

/-- Witness for the amended C6 theorem at a registered awaiting job with
an exception-raising and a ValueError-raising provider check. -/
theorem get_status_live_check_spec_witness :
    (getStatus envExnW storeW "j").1 =
      some ⟨"j", JStatus.awaitingPayment, some "error", none⟩ ∧
    (lookupJob (getStatus envExnW storeW "j").2 "j").map JobRecord.paymentStatus =
      some (some "error") ∧
    (getStatus envValueErrW storeW "j").1 =
      some ⟨"j", JStatus.awaitingPayment, some "unknown", none⟩ := by
  have h1 := (get_status_live_check_spec String envExnW storeW "j" recW "connection reset"
    rfl (by decide)).1 rfl
  have h2 := ((get_status_live_check_spec String envValueErrW storeW "j" recW "bad payload"
    rfl (by decide)).2.1) rfl
  exact ⟨h1.1, h1.2, h2.1⟩

/-- C7, counterexample. A job whose pipeline succeeds but whose
complete_payment report raises ends handle_payment_status marked failed with
the provider error stored and no result stored: the report is not
best-effort, its failure is re-raised into the except branch and marks the
job failed, refuting the claim as stated. -/
theorem complete_payment_failure_marks_job_failed :
    (lookupJob (runOps envPayFailW (emptyStore String)
        [Op.start "j" inputW "bid" "pid", Op.handle "j"]).1 "j").map JobRecord.status =
      some JStatus.failed ∧
    (lookupJob (runOps envPayFailW (emptyStore String)
        [Op.start "j" inputW "bid" "pid", Op.handle "j"]).1 "j").map JobRecord.result =
      some none ∧
    (lookupJob (runOps envPayFailW (emptyStore String)
        [Op.start "j" inputW "bid" "pid", Op.handle "j"]).1 "j").map JobRecord.errorMsg =
      some (some "provider down") := by
  refine ⟨rfl, rfl, rfl⟩

/-- C7, amended. After a successful pipeline execution the job transitions
to completed with the result stored only when the subsequent
complete_payment report succeeds; when the report raises, the exception
lands in the handler's except branch, which marks the job failed with the
provider error stored and leaves the result unwritten. -/
theorem complete_payment_report_spec (α : Type) (env : SysEnv α) (st : Store α)
    (j : String) (job : JobRecord α) (v : α) (e : String)
    (hr : lookupJob st j = some job) (hmem : j ∈ st.paymentInstances)
    (hp : env.pipeline (processInput job.inputData) = Except.ok v) :
    (env.completePayment job.blockchainIdentifier v = Except.ok () →
      (lookupJob (handlePayment env st j).1 j).map JobRecord.status =
        some JStatus.completed ∧
      (lookupJob (handlePayment env st j).1 j).map JobRecord.result = some (some v) ∧
      (lookupJob (handlePayment env st j).1 j).map JobRecord.paymentStatus =
        some (some "completed"))
  ∧ (env.completePayment job.blockchainIdentifier v = Except.error e →
      (lookupJob (handlePayment env st j).1 j).map JobRecord.status = some JStatus.failed ∧
      (lookupJob (handlePayment env st j).1 j).map JobRecord.result = some job.result ∧
      (lookupJob (handlePayment env st j).1 j).map JobRecord.errorMsg = some (some e)) := by
  constructor
  · intro hc
    rw [handlePayment_ok_ok env st j job v hr hmem hp hc]
    exact ⟨rfl, rfl, rfl⟩
  · intro hc
    rw [handlePayment_ok_err env st j job v e hr hmem hp hc]
    exact ⟨rfl, rfl, rfl⟩

/-- Witness for the amended C7 theorem at a registered awaiting job with a
succeeding and a failing complete_payment provider. -/
theorem complete_payment_report_spec_witness :
    (lookupJob (handlePayment envOkW storeW "j").1 "j").map JobRecord.status =
      some JStatus.completed ∧
    (lookupJob (handlePayment envOkW storeW "j").1 "j").map JobRecord.result =
      some (some "R") ∧
    (lookupJob (handlePayment envPayFailW storeW "j").1 "j").map JobRecord.status =
      some JStatus.failed ∧
    (lookupJob (handlePayment envPayFailW storeW "j").1 "j").map JobRecord.result =
      some none := by
  have h1 := (complete_payment_report_spec String envOkW storeW "j" recW "R" "provider down"
    rfl (by decide) rfl).1 rfl
  have h2 := (complete_payment_report_spec String envPayFailW storeW "j" recW "R"
    "provider down" rfl (by decide) rfl).2 rfl
  exact ⟨h1.1, h1.2.1, h2.1, h2.2.1⟩

/-- C8, counterexample. handle_payment_status rewrites the stored
input_data in place: after one payment confirmation the job's stored
keywords value is no longer the comma string supplied at creation but the
split-and-stripped list, so the stored input is not equal to what start_job
stored and the immutability claim fails as stated. -/
theorem input_data_mutated_by_payment_handler :
    (lookupJob (runOps envOkW (emptyStore String)
        [Op.start "j" inputW "bid" "pid", Op.handle "j"]).1 "j").map JobRecord.inputData =
      some (processInput inputW) ∧
    processInput inputW ≠ inputW ∧
    (processInput inputW).keywords = KwVal.list ["Masumi Network", "Cardano"] := by
  refine ⟨rfl, by decide, by decide⟩

/-- C8, amended. Across every sequence of operations, the only mutation the
stored input_data ever undergoes is the payment handler's one-shot keywords
normalisation: topic, tone, platform and link are never changed, and the
keywords value is either the one stored at creation or its comma-split,
stripped list form. -/
theorem input_data_frame_spec (α : Type) (env : SysEnv α) (ops : List Op) (st : Store α)
    (j : String) (r r2 : JobRecord α) (hr : lookupJob st j = some r)
    (hr2 : lookupJob (runOps env st ops).1 j = some r2) :
    inputFrame r.inputData r2.inputData := by
  obtain ⟨job2, hj2, hf⟩ := runOps_inputFrame env ops st j r hr
  rw [hr2] at hj2
  injection hj2 with hj2
  rw [← hj2] at hf
  exact hf

/-- Witness for the amended C8 theorem: one confirmation on a stored job. -/
theorem input_data_frame_spec_witness :
    inputFrame recW.inputData recAfterHandleW.inputData :=
  input_data_frame_spec String envOkW [Op.handle "j"] storeW "j" recW recAfterHandleW
    rfl rfl

/-- C9. The claimed invariant fails in the program: every confirmation
handler factors through the store reached after main.py lines 286-291 and
before the deregistration at lines 313-314 / 322-323 (the handler suspends
there at the awaits of lines 296 and 303), and in that store the witness job
has status running while its payment instance is still registered, so a
Payment Monitor is active for a job that is not awaiting_payment; a
concurrent get_status even performs the live provider check on the running
job. The final conjunct exhibits the factoring of the atomic handler through
this mid-await store. -/
theorem monitor_active_while_job_running :
    (lookupJob stMidW "j").map JobRecord.status = some JStatus.running ∧
    "j" ∈ stMidW.paymentInstances ∧
    ¬ storeInv stMidW ∧
    ((getStatus envOkW stMidW "j").1).map StatusResponse.status = some JStatus.running ∧
    ((getStatus envOkW stMidW "j").1).map StatusResponse.paymentStatus =
      some (some "pending") ∧
    handlePayment envOkW stAfterStartW "j" =
      ((handlerResume envOkW stMidW "j").1,
       (handlerEntry stAfterStartW "j").2 ++ (handlerResume envOkW stMidW "j").2) := by
  refine ⟨rfl, by decide, ?_, rfl, rfl, handlePayment_decompose envOkW stAfterStartW "j"⟩
  intro hinv
  obtain ⟨r, hr, hst⟩ := (hinv "j").mp (by decide)
  have h2 : (lookupJob stMidW "j").map JobRecord.status = some JStatus.running := rfl
  rw [hr] at h2
  simp only [Option.map_some'] at h2
  rw [hst] at h2
  exact absurd h2 (by decide)

/-- C10. For every payload and query, with a positive num_results,
_normalize_results returns a non-empty list of at most num_results
snippets whose title and snippet fields are never None (each snippet being
a record of exactly the four keys title, link, snippet, source), and a
payload with no organic, news or related-question results yields exactly
the one placeholder snippet naming the query. -/
theorem normalize_results_spec (numResults : Nat) (payload : SerpPayload) (query : String)
    (h : 0 < numResults) :
    normalizeResults numResults payload query ≠ []
  ∧ (normalizeResults numResults payload query).length ≤ numResults
  ∧ (∀ s ∈ normalizeResults numResults payload query, s.title ≠ none ∧ s.snippet ≠ none)
  ∧ (payload.organicResults = [] → payload.newsResults = [] →
      payload.relatedQuestions = [] →
      normalizeResults numResults payload query = [placeholderSnippet query]) := by
  refine ⟨?_, ?_, ?_, ?_⟩
  · rw [← List.length_pos, normalizeResults, List.length_take]
    have hpos : 0 < (if (combinedResults numResults payload).isEmpty
        then [placeholderSnippet query] else combinedResults numResults payload).length := by
      by_cases he : (combinedResults numResults payload).isEmpty
      · simp [he]
      · simp only [if_neg he]
        rw [List.length_pos]
        intro hnil
        exact he (List.isEmpty_iff.mpr hnil)
    omega
  · rw [normalizeResults, List.length_take]
    omega
  · intro s hs
    rw [normalizeResults] at hs
    have hs2 := List.mem_of_mem_take hs
    by_cases he : (combinedResults numResults payload).isEmpty
    · rw [if_pos he] at hs2
      rcases List.mem_singleton.mp hs2 with rfl
      exact ⟨by simp [placeholderSnippet], by simp [placeholderSnippet]⟩
    · rw [if_neg he] at hs2
      rw [combinedResults] at hs2
      rcases List.mem_append.mp hs2 with hs3 | hs3
      · rcases List.mem_append.mp hs3 with hs4 | hs4 <;>
          obtain ⟨e, _, rfl⟩ := List.mem_map.mp hs4 <;>
            exact ⟨by simp [mkSnippet], by simp [mkSnippet]⟩
      · obtain ⟨e, _, rfl⟩ := List.mem_map.mp hs3
        exact ⟨by simp [mkSnippet], by simp [mkSnippet]⟩
  · intro h1 h2 h3
    have hcomb : combinedResults numResults payload = [] := by
      simp [combinedResults, h1, h2, h3]
    rw [normalizeResults, hcomb]
    simp only [List.isEmpty_nil, if_pos]
    exact List.take_of_length_le (by simpa using h)

/-- Witness for the C10 theorem at a one-result payload and at the empty
payload. -/
theorem normalize_results_spec_witness :
    normalizeResults 8 samplePayload "q" ≠ []
  ∧ (normalizeResults 8 samplePayload "q").length ≤ 8
  ∧ normalizeResults 8 emptyPayload "q" = [placeholderSnippet "q"] := by
  have h1 := normalize_results_spec 8 samplePayload "q" (by decide)
  have h2 := normalize_results_spec 8 emptyPayload "q" (by decide)
  exact ⟨h1.1, h1.2.1, h2.2.2.2 rfl rfl rfl⟩

end AiContentAgent
